import Mathlib

/-!
Verification of the remote query execution pipeline of a desktop client for
remote SQLite databases, together with its presentation-layer callers.

The repository sources provide the presentation layer
(`frontend/src/components/Dashboard.tsx`); the core pipeline
(RemoteQueryExecutor, OutputParser, Query Gateway) sits behind the
`ExecuteQuery` boundary and is modelled from the specification where noted.
-/

/-- Modelled from the spec: `Value` of a `QueryResult` field, one of null,
string, number, boolean (spec, Data Model).  A number keeps its lexical form;
the host-numeric conversion limitation the spec documents does not affect any
property proved here. -/
inductive Value where
  | null : Value
  | str : String → Value
  | num : String → Value
  | bool : Bool → Value
  deriving DecidableEq, Repr

/-- Modelled from the spec: the tagged `ExecutionError` variant (spec, Data
Model and Error Handling).  The `parse` variant reports the offending line and
its field count, and `notConnected` covers a gateway call with no live
session. -/
inductive ExecutionError where
  | authentication
  | network
  | timeout
  | notConnected
  | remoteCommand (exitStatus : Int) (stderrText : String)
  | parse (offendingLine : String) (fieldCount : Nat)
  deriving DecidableEq, Repr

/-- Modelled from the spec: `QueryResult` (spec, Data Model) — ordered column
names and ordered rows, each row an ordered mapping column to Value. -/
structure QueryResult where
  columns : List String
  rows : List (List (String × Value))
  deriving DecidableEq, Repr

/-- Splits a character list on a separator character; always yields at least
one (possibly empty) field. -/
def splitCharsOn (d : Char) : List Char → List (List Char)
  | [] => [[]]
  | c :: cs =>
    match splitCharsOn d cs with
    | [] => [[]]
    | f :: fs => if c = d then [] :: f :: fs else (c :: f) :: fs

/-- Modelled from the spec: the agreed machine-parseable field delimiter of
the remote tool's headered line-mode output (the remote tool's list-mode
separator). -/
def fieldDelim : Char := '|'

/-- Modelled from the spec: the textual placeholder the remote tool prints for
SQL NULL; the spec leaves the exact placeholder to the wire contract, the
model fixes the conventional one. -/
def nullPlaceholder : String := "NULL"

/-- Splits raw output into lines, dropping the trailing empty line produced by
a final newline; empty output yields no lines. -/
def splitLines (raw : String) : List String :=
  let ls := (splitCharsOn '\n' raw.data).map String.mk
  match ls.getLast? with
  | some "" => ls.dropLast
  | _ => ls

/-- Splits one output line into its fields at the agreed delimiter. -/
def splitFields (l : String) : List String :=
  (splitCharsOn fieldDelim l.data).map String.mk

/-- A non-empty run of decimal digits. -/
def isDigitRun (cs : List Char) : Bool :=
  !cs.isEmpty && cs.all Char.isDigit

/-- Modelled from the spec: integer or decimal numeric lexical form
(spec, OutputParser coercion rule). -/
def isNumericLit (s : String) : Bool :=
  let cs :=
    match s.data with
    | '-' :: rest => rest
    | cs => cs
  match splitCharsOn '.' cs with
  | [ip] => isDigitRun ip
  | [ip, fp] => isDigitRun ip && isDigitRun fp
  | _ => false

/-- Modelled from the spec: field-to-Value coercion (spec, OutputParser) — the
NULL placeholder becomes `Value.null`, a numeric lexical form becomes a
number, everything else stays a string (the remote tool has no boolean
output convention). -/
def coerceField (f : String) : Value :=
  if f = nullPlaceholder then Value.null
  else if isNumericLit f then Value.num f
  else Value.str f

/-- Modelled from the spec: the OutputParser row phase — each data line must
split into exactly `cols.length` fields, otherwise the parser fails with
Parse carrying the offending line and its field count. -/
def parseRows (cols : List String) :
    List String → Except ExecutionError (List (List (String × Value)))
  | [] => Except.ok []
  | l :: ls =>
    let fields := splitFields l
    if fields.length = cols.length then
      match parseRows cols ls with
      | Except.ok rows => Except.ok ((cols.zip (fields.map coerceField)) :: rows)
      | Except.error e => Except.error e
    else
      Except.error (ExecutionError.parse l fields.length)

/-- Modelled from the spec: `OutputParser.parse` — the first line, if present,
is the header defining `columns`; a header that does not split into a
non-empty column list fails with Parse; empty output is the empty result. -/
def parseOutput (raw : String) : Except ExecutionError QueryResult :=
  match splitLines raw with
  | [] => Except.ok ⟨[], []⟩
  | header :: rest =>
    let cols := splitFields header
    if cols.isEmpty then Except.error (ExecutionError.parse header 0)
    else
      match parseRows cols rest with
      | Except.ok rows => Except.ok ⟨cols, rows⟩
      | Except.error e => Except.error e

/-- Captured output of the remote process: exit status, stdout, stderr. -/
structure ProcOutput where
  exitStatus : Int
  stdout : String
  stderr : String
  deriving DecidableEq, Repr

/-- Outcome of running the remote command: timed out, or completed with
captured output. -/
inductive ProcOutcome where
  | timedOut
  | completed (o : ProcOutput)
  deriving DecidableEq, Repr

/-- Modelled from the spec: the remote command line (spec,
RemoteQueryExecutor) — invokes the remote sqlite3 binary against the database
path in a headered, machine-parseable line mode, passing the statement as one
opaque payload. -/
def buildRemoteCommand (dbPath sqlText : String) : String :=
  "sqlite3 -list -header " ++ dbPath ++ " \"" ++ sqlText ++ "\""

/-- Modelled from the spec: `RemoteQueryExecutor.execute`.  The remote side is
abstracted as `runRemote`, mapping the command line to its outcome; a timeout
fails with Timeout, a non-zero exit or non-empty stderr fails with
RemoteCommand carrying status and stderr verbatim, otherwise stdout goes to
the parser and Parse failures propagate unchanged. -/
def execute (runRemote : String → ProcOutcome) (dbPath sqlText : String) :
    Except ExecutionError QueryResult :=
  match runRemote (buildRemoteCommand dbPath sqlText) with
  | ProcOutcome.timedOut => Except.error ExecutionError.timeout
  | ProcOutcome.completed o =>
    if o.exitStatus ≠ 0 ∨ o.stderr ≠ "" then
      Except.error (ExecutionError.remoteCommand o.exitStatus o.stderr)
    else
      parseOutput o.stdout

/-- Joins strings with a separator, as JavaScript `Array.prototype.join`
does. -/
def joinWith (sep : String) : List String → String
  | [] => ""
  | [x] => x
  | x :: y :: rest => x ++ sep ++ joinWith sep (y :: rest)

/-- JSON string escaping for one character. -/
def jsonEscapeChar (c : Char) : String :=
  if c = '\\' then "\\\\"
  else if c = '"' then "\\\""
  else if c = '\n' then "\\n"
  else if c = '\r' then "\\r"
  else if c = '\t' then "\\t"
  else String.singleton c

/-- A JSON string literal: quoted and escaped. -/
def jsonQuote (s : String) : String :=
  "\"" ++ String.join (s.data.map jsonEscapeChar) ++ "\""

/-- Modelled from the spec: JSON serialization of one field value (spec,
External Interfaces) — JSON null, number, string or boolean. -/
def serializeValue : Value → String
  | Value.null => "null"
  | Value.str s => jsonQuote s
  | Value.num n => n
  | Value.bool b => if b then "true" else "false"

/-- One row serialized as a JSON object whose keys are the column names. -/
def serializeRow (row : List (String × Value)) : String :=
  "\x7b" ++ joinWith "," (row.map fun kv => jsonQuote kv.1 ++ ":" ++ serializeValue kv.2) ++ "\x7d"

/-- A `QueryResult` serialized as a JSON array of row objects. -/
def serializeResult (r : QueryResult) : String :=
  "[" ++ joinWith "," (r.rows.map serializeRow) ++ "]"

/-- Modelled from the spec: the human-readable description following the
"Error" prefix at the boundary, with the remote stderr text verbatim for
RemoteCommand failures. -/
def errorDescription : ExecutionError → String
  | ExecutionError.authentication => ": authentication failed"
  | ExecutionError.network => ": network failure"
  | ExecutionError.timeout => ": query timed out"
  | ExecutionError.notConnected => ": not connected"
  | ExecutionError.remoteCommand st err =>
    ": remote command failed with exit status " ++ toString st ++ ": " ++ err
  | ExecutionError.parse l n =>
    ": cannot parse output line " ++ jsonQuote l ++ " with " ++ toString n ++ " fields"

/-- Modelled from the spec: the boundary error string — the literal prefix
"Error" followed by a human-readable description. -/
def errorMessage (e : ExecutionError) : String :=
  "Error" ++ errorDescription e

/-- Modelled from the spec: the Query Gateway outcome — fails fast with
NotConnected when no live session exists, else delegates to the executor. -/
def gatewayRun (hasSession : Bool) (runRemote : String → ProcOutcome)
    (dbPath sqlText : String) : Except ExecutionError QueryResult :=
  if hasSession then execute runRemote dbPath sqlText
  else Except.error ExecutionError.notConnected

/-- Modelled from the spec: the boundary function `ExecuteQuery` (spec,
External Interfaces) — a success serializes to a JSON array of row objects, a
failure to an "Error"-prefixed string. -/
def ExecuteQuery (hasSession : Bool) (runRemote : String → ProcOutcome)
    (dbPath sqlText : String) : String :=
  match gatewayRun hasSession runRemote dbPath sqlText with
  | Except.ok r => serializeResult r
  | Except.error e => errorMessage e

/-- JSON values as the frontend sees them after `JSON.parse`; `undef` stands
for the JavaScript `undefined` produced by a missing property. -/
inductive Json where
  | null
  | bool (b : Bool)
  | num (n : Int)
  | str (s : String)
  | arr (elems : List Json)
  | obj (fields : List (String × Json))
  | undef

/-- Boolean test that the first list leads the second one element by
element. -/
def charsLead : List Char → List Char → Bool
  | [], _ => true
  | _ :: _, [] => false
  | a :: as, b :: bs => a == b && charsLead as bs

/-- Model of JavaScript `s.startsWith(p)` as the Dashboard uses it. -/
def strStartsWith (s p : String) : Bool :=
  charsLead p.data s.data

/-- Model of JavaScript `Object.keys` on a parsed JSON value
(`Dashboard.tsx` line 89): field names of an object, index keys of an array
or string, no keys otherwise.  `Object.keys(null)` throws in JavaScript; no
theorem below depends on that corner. -/
def jsObjectKeys : Json → List String
  | Json.obj fs => fs.map Prod.fst
  | Json.arr xs => (List.range xs.length).map toString
  | Json.str s => (List.range s.length).map toString
  | _ => []

/-- Model of the JavaScript property access `row.name` (`Dashboard.tsx`
line 66): a missing field or a non-object receiver yields `undefined`; a
`null` or `undefined` receiver throws a TypeError. -/
def jsGetField (k : String) : Json → Except String Json
  | Json.null => Except.error "TypeError: cannot read properties of null"
  | Json.undef => Except.error "TypeError: cannot read properties of undefined"
  | Json.obj fs =>
    Except.ok
      (match fs.lookup k with
      | some v => v
      | none => Json.undef)
  | _ => Except.ok Json.undef

/-- The Dashboard state touched by `handleExecute` (`Dashboard.tsx`
lines 22 to 26). -/
structure DashState where
  results : List Json
  columns : List String
  error : Option String
  isLoading : Bool

/-- `handleExecute` before awaiting `ExecuteQuery` (`Dashboard.tsx`
lines 73 to 76): loading on, error, results and columns cleared. -/
def handleExecutePre (s : DashState) : DashState :=
  { s with isLoading := true, error := none, results := [], columns := [] }

/-- `handleExecute` after the awaited call settles (`Dashboard.tsx`
lines 79 to 99).  `call` is the settled `ExecuteQuery` promise
(`Except.error` is a rejection caught by the catch block) and `jsonParse`
models `JSON.parse` (`Except.error` is a thrown exception, equally caught). -/
def handleExecuteFinish (jsonParse : String → Except String Json)
    (call : Except String String) (s : DashState) : DashState :=
  let s1 :=
    match call with
    | Except.error e => { s with error := some ("Execution failed: " ++ e) }
    | Except.ok res =>
      if strStartsWith res "Error" then { s with error := some res }
      else if res.trim = "" then
        { s with results := [], error := some "No results or empty response." }
      else
        match jsonParse res with
        | Except.error e => { s with error := some ("Execution failed: " ++ e) }
        | Except.ok parsed =>
          match parsed with
          | Json.arr elems =>
            match elems with
            | x :: xs => { s with results := x :: xs, columns := jsObjectKeys x }
            | [] =>
              { s with results := [],
                       error := some "Query executed successfully but returned no data." }
          | _ =>
            { s with results := [],
                     error := some "Query executed successfully but returned no data." }
  { s1 with isLoading := false }

/-- The complete `handleExecute` flow: clear, await, settle. -/
def handleExecuteRun (jsonParse : String → Except String Json)
    (call : Except String String) (s : DashState) : DashState :=
  handleExecuteFinish jsonParse call (handleExecutePre s)

/-- `fetchTables` (`Dashboard.tsx` lines 58 to 70): on an "Error"-prefixed
response or any thrown error (rejected call, `JSON.parse` failure, `.map` on
a non-array value, property access on null) the `tables` state is untouched;
otherwise it becomes the `name` field of each row, in order. -/
def fetchTables (jsonParse : String → Except String Json)
    (call : Except String String) (tables : List Json) : List Json :=
  match call with
  | Except.error _ => tables
  | Except.ok res =>
    if strStartsWith res "Error" then tables
    else
      match jsonParse res with
      | Except.error _ => tables
      | Except.ok parsed =>
        match parsed with
        | Json.arr xs =>
          match xs.mapM (jsGetField "name") with
          | Except.ok names => names
          | Except.error _ => tables
        | _ => tables

/-- The filter operators of the Dashboard (`Dashboard.tsx` lines 14 to 18). -/
inductive FilterOp where
  | eq
  | gt
  | lt
  | like
  deriving DecidableEq, Repr

/-- The operator text interpolated into the SQL condition. -/
def FilterOp.text : FilterOp → String
  | FilterOp.eq => "="
  | FilterOp.gt => ">"
  | FilterOp.lt => "<"
  | FilterOp.like => "LIKE"

/-- `FilterConfig` (`Dashboard.tsx` lines 14 to 18). -/
structure FilterConfig where
  column : String
  operator : FilterOp
  value : String
  deriving DecidableEq, Repr

/-- The quoted value literal of one filter (`Dashboard.tsx` line 141): the
raw value wrapped in single quotes, with percent signs for LIKE. -/
def filterValueLiteral (f : FilterConfig) : String :=
  if f.operator = FilterOp.like then "\x27%" ++ f.value ++ "%\x27"
  else "\x27" ++ f.value ++ "\x27"

/-- One filter condition (`Dashboard.tsx` lines 140 to 143). -/
def filterCondition (f : FilterConfig) : String :=
  f.column ++ " " ++ f.operator.text ++ " " ++ filterValueLiteral f

/-- The WHERE clause built by `applyFilters` (`Dashboard.tsx`
lines 138 to 145). -/
def whereClause (fs : List FilterConfig) : String :=
  match fs with
  | [] => ""
  | _ => "WHERE " ++ joinWith " AND " (fs.map filterCondition)

/-- The SQL text `applyFilters` builds and hands to `executeCustomQuery`,
which passes it to `ExecuteQuery` (`Dashboard.tsx` lines 147 to 149). -/
def applyFiltersQuery (t : String) (fs : List FilterConfig) : String :=
  "SELECT * FROM " ++ t ++ " " ++ whereClause fs ++ " LIMIT 100;"

/-- The substring relation on strings, stated over their character data. -/
def strContains (s sub : String) : Prop :=
  ∃ p q : List Char, s.data = p ++ sub.data ++ q

theorem charsLead_self_append (p t : List Char) : charsLead p (p ++ t) = true := by
  induction p with
  | nil => rfl
  | cons a as ih => simp [charsLead, ih]

theorem charsLead_error_not_bracket (l : List Char) :
    charsLead "Error".data ('[' :: l) = false := by
  have h : "Error".data = ['E', 'r', 'r', 'o', 'r'] := rfl
  rw [h]
  simp only [charsLead]
  rw [show ('E' == '[') = false from rfl]
  simp

theorem strStartsWith_error (e : ExecutionError) :
    strStartsWith (errorMessage e) "Error" = true := by
  unfold strStartsWith errorMessage
  rw [String.data_append]
  exact charsLead_self_append _ _

theorem strStartsWith_serialize (r : QueryResult) :
    strStartsWith (serializeResult r) "Error" = false := by
  unfold strStartsWith serializeResult
  rw [String.data_append, String.data_append]
  exact charsLead_error_not_bracket _

theorem splitCharsOn_ne_nil (d : Char) (cs : List Char) : splitCharsOn d cs ≠ [] := by
  induction cs with
  | nil => simp [splitCharsOn]
  | cons c cs ih =>
    simp only [splitCharsOn]
    cases hs : splitCharsOn d cs with
    | nil => simp
    | cons f fs =>
      by_cases hc : c = d
      · simp [hc]
      · simp [hc]

theorem splitFields_isEmpty_false (l : String) : (splitFields l).isEmpty = false := by
  unfold splitFields
  cases hs : splitCharsOn fieldDelim l.data with
  | nil => exact absurd hs (splitCharsOn_ne_nil _ _)
  | cons f fs => simp

theorem parseRows_ok_shape (cols : List String) :
    ∀ (ls : List String) (rows : List (List (String × Value))),
      parseRows cols ls = Except.ok rows →
      ∀ row ∈ rows, row.map Prod.fst = cols ∧ ∀ kv ∈ row, ∃ f, kv.2 = coerceField f := by
  intro ls
  induction ls with
  | nil =>
    intro rows h row hrow
    simp only [parseRows, Except.ok.injEq] at h
    subst h
    exact absurd hrow (List.not_mem_nil row)
  | cons l ls ih =>
    intro rows h row hrow
    simp only [parseRows] at h
    by_cases hlen : (splitFields l).length = cols.length
    · rw [if_pos hlen] at h
      cases hrec : parseRows cols ls with
      | ok rows0 =>
        rw [hrec] at h
        injection h with h
        subst h
        rcases List.mem_cons.mp hrow with hr | hr
        · subst hr
          constructor
          · apply List.map_fst_zip
            rw [List.length_map]
            exact hlen.ge
          · intro kv hkv
            obtain ⟨k, v⟩ := kv
            have h2 := (List.of_mem_zip hkv).2
            rcases List.mem_map.mp h2 with ⟨f, _, hfe⟩
            exact ⟨f, hfe.symm⟩
        · exact ih rows0 hrec row hr
      | error e => rw [hrec] at h; simp at h
    · rw [if_neg hlen] at h
      simp at h

theorem parseRows_error_first_bad (cols : List String) :
    ∀ ls : List String, (∃ l ∈ ls, (splitFields l).length ≠ cols.length) →
      ∃ l2, l2 ∈ ls ∧ (splitFields l2).length ≠ cols.length ∧
        parseRows cols ls = Except.error (ExecutionError.parse l2 (splitFields l2).length) := by
  intro ls
  induction ls with
  | nil =>
    intro h
    rcases h with ⟨l, hl, _⟩
    exact absurd hl (List.not_mem_nil l)
  | cons l ls ih =>
    intro h
    by_cases hlen : (splitFields l).length = cols.length
    · have hex : ∃ l0 ∈ ls, (splitFields l0).length ≠ cols.length := by
        rcases h with ⟨l0, hl0, hb⟩
        rcases List.mem_cons.mp hl0 with he | he
        · subst he; exact absurd hlen hb
        · exact ⟨l0, he, hb⟩
      rcases ih hex with ⟨l2, hm, hb2, herr⟩
      refine ⟨l2, List.mem_cons_of_mem _ hm, hb2, ?_⟩
      simp only [parseRows]
      rw [if_pos hlen, herr]
    · refine ⟨l, List.mem_cons_self l ls, hlen, ?_⟩
      simp only [parseRows]
      rw [if_neg hlen]

theorem parseOutput_ok_shape (raw : String) (r : QueryResult)
    (h : parseOutput raw = Except.ok r) :
    ∀ row ∈ r.rows, row.map Prod.fst = r.columns ∧ ∀ kv ∈ row, ∃ f, kv.2 = coerceField f := by
  intro row hrow
  unfold parseOutput at h
  cases hsl : splitLines raw with
  | nil =>
    rw [hsl] at h
    injection h with h
    subst h
    exact absurd hrow (List.not_mem_nil row)
  | cons header rest =>
    rw [hsl] at h
    simp only [splitFields_isEmpty_false, Bool.false_eq_true, if_false] at h
    cases hpr : parseRows (splitFields header) rest with
    | ok rows0 =>
      rw [hpr] at h
      injection h with h
      subst h
      exact parseRows_ok_shape (splitFields header) rest rows0 hpr row hrow
    | error e => rw [hpr] at h; simp at h

theorem execute_ok_parseOutput (runRemote : String → ProcOutcome)
    (dbPath sqlText : String) (r : QueryResult)
    (h : execute runRemote dbPath sqlText = Except.ok r) :
    ∃ o : ProcOutput,
      runRemote (buildRemoteCommand dbPath sqlText) = ProcOutcome.completed o ∧
      parseOutput o.stdout = Except.ok r := by
  cases hr : runRemote (buildRemoteCommand dbPath sqlText) with
  | timedOut => simp only [execute, hr] at h; simp at h
  | completed o =>
    simp only [execute, hr] at h
    by_cases hg : o.exitStatus ≠ 0 ∨ o.stderr ≠ ""
    · rw [if_pos hg] at h; simp at h
    · rw [if_neg hg] at h
      exact ⟨o, rfl, h⟩

/-- C1: every string returned by the boundary function `ExecuteQuery` is
either the JSON array serialization of a successful `QueryResult` (which
never starts with "Error") or, on failure, a string starting with the
literal prefix "Error"; checking for that prefix therefore distinguishes
every failure from every success. -/
theorem boundary_error_prefix_sole_channel (hasSession : Bool)
    (runRemote : String → ProcOutcome) (dbPath sqlText : String) :
    (∃ r, gatewayRun hasSession runRemote dbPath sqlText = Except.ok r ∧
       ExecuteQuery hasSession runRemote dbPath sqlText = serializeResult r ∧
       strStartsWith (ExecuteQuery hasSession runRemote dbPath sqlText) "Error" = false) ∨
    (∃ e, gatewayRun hasSession runRemote dbPath sqlText = Except.error e ∧
       ExecuteQuery hasSession runRemote dbPath sqlText = errorMessage e ∧
       strStartsWith (ExecuteQuery hasSession runRemote dbPath sqlText) "Error" = true) := by
  cases hg : gatewayRun hasSession runRemote dbPath sqlText with
  | ok r =>
    left
    have he : ExecuteQuery hasSession runRemote dbPath sqlText = serializeResult r := by
      simp [ExecuteQuery, hg]
    exact ⟨r, rfl, he, by rw [he]; exact strStartsWith_serialize r⟩
  | error e =>
    right
    have he : ExecuteQuery hasSession runRemote dbPath sqlText = errorMessage e := by
      simp [ExecuteQuery, hg]
    exact ⟨e, rfl, he, by rw [he]; exact strStartsWith_error e⟩

/-- C2: a remote process that completes with exit status zero, empty stdout
and empty stderr yields the `QueryResult` with empty columns and empty rows,
not an error, and the boundary returns the string "[]", never the empty
string. -/
theorem empty_success_returns_empty_array (runRemote : String → ProcOutcome)
    (dbPath sqlText : String) (o : ProcOutput)
    (hrun : runRemote (buildRemoteCommand dbPath sqlText) = ProcOutcome.completed o)
    (hstatus : o.exitStatus = 0) (hout : o.stdout = "") (herr : o.stderr = "") :
    execute runRemote dbPath sqlText = Except.ok ⟨[], []⟩ ∧
    ExecuteQuery true runRemote dbPath sqlText = "[]" ∧
    ExecuteQuery true runRemote dbPath sqlText ≠ "" := by
  have h1 : execute runRemote dbPath sqlText = Except.ok ⟨[], []⟩ := by
    simp only [execute, hrun]
    rw [if_neg (by simp [hstatus, herr]), hout]
    rfl
  have h2 : ExecuteQuery true runRemote dbPath sqlText = "[]" := by
    simp [ExecuteQuery, gatewayRun, h1]
    rfl
  exact ⟨h1, h2, by rw [h2]; decide⟩

/-- C3: for every successful execution, the key sequence of every row of the
resulting `QueryResult` equals the `columns` sequence exactly — same
cardinality, no extra keys, no missing keys. -/
theorem rows_keys_match_columns (runRemote : String → ProcOutcome)
    (dbPath sqlText : String) (r : QueryResult)
    (h : execute runRemote dbPath sqlText = Except.ok r)
    (row : List (String × Value)) (hrow : row ∈ r.rows) :
    row.map Prod.fst = r.columns := by
  rcases execute_ok_parseOutput runRemote dbPath sqlText r h with ⟨o, _, hp⟩
  exact (parseOutput_ok_shape o.stdout r hp row hrow).1

/-- C4: a parsed field holding the remote tool's textual placeholder for SQL
NULL is coerced to `Value.null`, and no value of any parsed row is ever the
string form of that placeholder. -/
theorem null_placeholder_becomes_null (raw : String) (r : QueryResult)
    (h : parseOutput raw = Except.ok r) (row : List (String × Value))
    (hrow : row ∈ r.rows) (kv : String × Value) (hkv : kv ∈ row) :
    coerceField nullPlaceholder = Value.null ∧ kv.2 ≠ Value.str nullPlaceholder := by
  constructor
  · simp [coerceField]
  · rcases (parseOutput_ok_shape raw r h row hrow).2 kv hkv with ⟨f, hf⟩
    rw [hf]
    by_cases h1 : f = nullPlaceholder
    · simp [coerceField, h1]
    · by_cases h2 : isNumericLit f
      · simp [coerceField, h1, h2]
      · simp [coerceField, h1, h2]

/-- C5: when the header defines `n` columns, any subsequent line that does not
split into exactly `n` fields makes the parser fail with Parse reporting an
offending line and its field count; the parse never succeeds with a
truncated, padded or misaligned row. -/
theorem parser_rejects_misaligned_line (raw header : String) (rest : List String)
    (hsplit : splitLines raw = header :: rest) (l : String) (hl : l ∈ rest)
    (hbad : (splitFields l).length ≠ (splitFields header).length) :
    ∃ l2, l2 ∈ rest ∧ (splitFields l2).length ≠ (splitFields header).length ∧
      parseOutput raw = Except.error (ExecutionError.parse l2 (splitFields l2).length) := by
  rcases parseRows_error_first_bad (splitFields header) rest ⟨l, hl, hbad⟩ with
    ⟨l2, hm, hb2, herr⟩
  refine ⟨l2, hm, hb2, ?_⟩
  unfold parseOutput
  rw [hsplit]
  simp only [splitFields_isEmpty_false, Bool.false_eq_true, if_false]
  rw [herr]

/-- C6: a completed remote command whose exit status is non-zero or whose
stderr is non-empty makes the executor fail with RemoteCommand carrying the
exit status and the stderr text verbatim, and that error reaches the boundary
as an "Error"-prefixed string rather than being dropped. -/
theorem remote_failure_carries_stderr (runRemote : String → ProcOutcome)
    (dbPath sqlText : String) (o : ProcOutput)
    (hrun : runRemote (buildRemoteCommand dbPath sqlText) = ProcOutcome.completed o)
    (hfail : o.exitStatus ≠ 0 ∨ o.stderr ≠ "") :
    execute runRemote dbPath sqlText =
      Except.error (ExecutionError.remoteCommand o.exitStatus o.stderr) ∧
    ExecuteQuery true runRemote dbPath sqlText =
      errorMessage (ExecutionError.remoteCommand o.exitStatus o.stderr) ∧
    strStartsWith (ExecuteQuery true runRemote dbPath sqlText) "Error" = true := by
  have h1 : execute runRemote dbPath sqlText =
      Except.error (ExecutionError.remoteCommand o.exitStatus o.stderr) := by
    simp only [execute, hrun]
    rw [if_pos hfail]
  have h2 : ExecuteQuery true runRemote dbPath sqlText =
      errorMessage (ExecutionError.remoteCommand o.exitStatus o.stderr) := by
    simp [ExecuteQuery, gatewayRun, h1]
  exact ⟨h1, h2, by rw [h2]; exact strStartsWith_error _⟩

/-- C7: the table-listing query against a database holding tables `users` and
`orders`, whose remote engine emits them in that order, returns exactly the
serialized array of the two name rows, in engine order. -/
theorem table_list_scenario :
    ExecuteQuery true (fun _ => ProcOutcome.completed ⟨0, "name\nusers\norders\n", ""⟩)
      "/var/www/app/db.sqlite" "SELECT name FROM sqlite_master WHERE type=\x27table\x27;" =
    "[\x7b\"name\":\"users\"\x7d,\x7b\"name\":\"orders\"\x7d]" := by
  decide

theorem empty_success_returns_empty_array_witness :
    execute (fun _ => ProcOutcome.completed ⟨0, "", ""⟩) "/tmp/db.sqlite"
        "CREATE TABLE t(a);" = Except.ok ⟨[], []⟩ ∧
    ExecuteQuery true (fun _ => ProcOutcome.completed ⟨0, "", ""⟩) "/tmp/db.sqlite"
        "CREATE TABLE t(a);" = "[]" ∧
    ExecuteQuery true (fun _ => ProcOutcome.completed ⟨0, "", ""⟩) "/tmp/db.sqlite"
        "CREATE TABLE t(a);" ≠ "" :=
  empty_success_returns_empty_array _ _ _ ⟨0, "", ""⟩ rfl rfl rfl rfl

theorem rows_keys_match_columns_witness :
    ([("a", Value.num "1"), ("b", Value.str "x")] : List (String × Value)).map Prod.fst =
      (⟨["a", "b"], [[("a", Value.num "1"), ("b", Value.str "x")]]⟩ : QueryResult).columns :=
  rows_keys_match_columns (fun _ => ProcOutcome.completed ⟨0, "a|b\n1|x\n", ""⟩)
    "/tmp/db.sqlite" "SELECT * FROM t;"
    ⟨["a", "b"], [[("a", Value.num "1"), ("b", Value.str "x")]]⟩ rfl
    [("a", Value.num "1"), ("b", Value.str "x")] (by simp)

theorem null_placeholder_becomes_null_witness :
    coerceField nullPlaceholder = Value.null ∧
    (("a", Value.null) : String × Value).2 ≠ Value.str nullPlaceholder :=
  null_placeholder_becomes_null "a\nNULL\n" ⟨["a"], [[("a", Value.null)]]⟩ rfl
    [("a", Value.null)] (by simp) ("a", Value.null) (by simp)

theorem parser_rejects_misaligned_line_witness :
    ∃ l2, l2 ∈ ["x"] ∧ (splitFields l2).length ≠ (splitFields "a|b").length ∧
      parseOutput "a|b\nx\n" = Except.error (ExecutionError.parse l2 (splitFields l2).length) :=
  parser_rejects_misaligned_line "a|b\nx\n" "a|b" ["x"] rfl "x" (by simp) (by decide)

theorem remote_failure_carries_stderr_witness :
    execute (fun _ => ProcOutcome.completed ⟨1, "", "no such table: users"⟩)
        "/tmp/db.sqlite" "SELECT 1;" =
      Except.error (ExecutionError.remoteCommand 1 "no such table: users") ∧
    ExecuteQuery true (fun _ => ProcOutcome.completed ⟨1, "", "no such table: users"⟩)
        "/tmp/db.sqlite" "SELECT 1;" =
      errorMessage (ExecutionError.remoteCommand 1 "no such table: users") ∧
    strStartsWith
      (ExecuteQuery true (fun _ => ProcOutcome.completed ⟨1, "", "no such table: users"⟩)
        "/tmp/db.sqlite" "SELECT 1;") "Error" = true :=
  remote_failure_carries_stderr _ _ _ ⟨1, "", "no such table: users"⟩ rfl
    (Or.inl (by decide))

theorem strContains_self (s : String) : strContains s s :=
  ⟨[], [], by simp⟩

theorem strContains_appendL (s t sub : String) (h : strContains s sub) :
    strContains (s ++ t) sub := by
  rcases h with ⟨p, q, hp⟩
  exact ⟨p, q ++ t.data, by rw [String.data_append, hp]; simp⟩

theorem strContains_appendR (s t sub : String) (h : strContains t sub) :
    strContains (s ++ t) sub := by
  rcases h with ⟨p, q, hp⟩
  exact ⟨s.data ++ p, q, by rw [String.data_append, hp]; simp⟩

theorem joinWith_contains (sep : String) (l : List String) (x : String) (hx : x ∈ l) :
    strContains (joinWith sep l) x := by
  induction l with
  | nil => exact absurd hx (List.not_mem_nil x)
  | cons a as ih =>
    cases as with
    | nil =>
      have hax : x = a := by simpa using hx
      subst hax
      exact strContains_self x
    | cons b bs =>
      rcases List.mem_cons.mp hx with he | he
      · subst he
        exact strContains_appendL (x ++ sep) (joinWith sep (b :: bs)) x
          (strContains_appendL x sep x (strContains_self x))
      · exact strContains_appendR (a ++ sep) (joinWith sep (b :: bs)) x (ih he)

/-- C8: for a non-empty filter list, `applyFilters` builds exactly the text
`SELECT * FROM t WHERE c1 op1 v1 AND ... LIMIT 100;` with each filter value
interpolated inside single quotes (with percent signs for LIKE) and no
escaping: the quoted value literal — the raw value, single-quote characters
included — appears verbatim in the query handed to `ExecuteQuery`. -/
theorem filters_interpolate_value_unescaped (t : String) (fs : List FilterConfig)
    (f : FilterConfig) (hf : f ∈ fs) :
    applyFiltersQuery t fs =
      "SELECT * FROM " ++ t ++ " WHERE " ++
        joinWith " AND " (fs.map filterCondition) ++ " LIMIT 100;" ∧
    strContains (applyFiltersQuery t fs) (filterValueLiteral f) ∧
    applyFiltersQuery "users" [⟨"name", FilterOp.eq, "O\x27Brien"⟩] =
      "SELECT * FROM users WHERE name = \x27O\x27Brien\x27 LIMIT 100;" := by
  cases fs with
  | nil => exact absurd hf (List.not_mem_nil f)
  | cons a as =>
    have hw : whereClause (a :: as) =
        "WHERE " ++ joinWith " AND " ((a :: as).map filterCondition) := rfl
    refine ⟨?_, ?_, by decide⟩
    · unfold applyFiltersQuery
      rw [hw, ← String.append_assoc ("SELECT * FROM " ++ t ++ " ") "WHERE "
        (joinWith " AND " ((a :: as).map filterCondition)),
        String.append_assoc ("SELECT * FROM " ++ t) " " "WHERE ",
        show (" " ++ "WHERE " : String) = " WHERE " by decide]
    · unfold applyFiltersQuery
      apply strContains_appendL
      apply strContains_appendR
      rw [hw]
      apply strContains_appendR
      have hc : strContains (filterCondition f) (filterValueLiteral f) := by
        unfold filterCondition
        exact strContains_appendR _ _ _ (strContains_self _)
      rcases hc with ⟨p2, q2, hp2⟩
      rcases joinWith_contains " AND " ((a :: as).map filterCondition)
          (filterCondition f) (List.mem_map_of_mem filterCondition hf) with ⟨p, q, hp⟩
      exact ⟨p ++ p2, q2 ++ q, by rw [hp, hp2]; simp⟩

theorem filters_interpolate_value_unescaped_witness :
    applyFiltersQuery "users" [⟨"name", FilterOp.eq, "O\x27Brien"⟩] =
      "SELECT * FROM " ++ "users" ++ " WHERE " ++
        joinWith " AND " ([⟨"name", FilterOp.eq, "O\x27Brien"⟩].map filterCondition) ++
        " LIMIT 100;" ∧
    strContains (applyFiltersQuery "users" [⟨"name", FilterOp.eq, "O\x27Brien"⟩])
      (filterValueLiteral ⟨"name", FilterOp.eq, "O\x27Brien"⟩) ∧
    applyFiltersQuery "users" [⟨"name", FilterOp.eq, "O\x27Brien"⟩] =
      "SELECT * FROM users WHERE name = \x27O\x27Brien\x27 LIMIT 100;" :=
  filters_interpolate_value_unescaped "users" [⟨"name", FilterOp.eq, "O\x27Brien"⟩]
    ⟨"name", FilterOp.eq, "O\x27Brien"⟩ (by simp)

/-- C9: `handleExecute` clears results and columns before the awaited call;
an "Error"-prefixed response leaves them empty and stores the response string
verbatim as the error; results become non-empty only when the response parses
to a non-empty JSON array; a response parsing to the empty array keeps results
empty and sets the no-data error message instead. -/
theorem handle_execute_clears_and_reports (jsonParse : String → Except String Json)
    (call : Except String String) (s : DashState) :
    (handleExecutePre s).results = [] ∧ (handleExecutePre s).columns = [] ∧
    (∀ res, call = Except.ok res → strStartsWith res "Error" = true →
      (handleExecuteRun jsonParse call s).results = [] ∧
      (handleExecuteRun jsonParse call s).columns = [] ∧
      (handleExecuteRun jsonParse call s).error = some res) ∧
    ((handleExecuteRun jsonParse call s).results ≠ [] →
      ∃ res x xs, call = Except.ok res ∧ jsonParse res = Except.ok (Json.arr (x :: xs)) ∧
        (handleExecuteRun jsonParse call s).results = x :: xs) ∧
    (∀ res, call = Except.ok res → strStartsWith res "Error" = false → res.trim ≠ "" →
      jsonParse res = Except.ok (Json.arr []) →
      (handleExecuteRun jsonParse call s).results = [] ∧
      (handleExecuteRun jsonParse call s).error =
        some "Query executed successfully but returned no data.") := by
  refine ⟨rfl, rfl, ?_, ?_, ?_⟩
  · intro res hc hE
    subst hc
    simp [handleExecuteRun, handleExecuteFinish, handleExecutePre, hE]
  · intro hne
    cases hcall : call with
    | error e =>
      subst hcall
      exact absurd rfl hne
    | ok res =>
      subst hcall
      by_cases hE : strStartsWith res "Error" = true
      · exact absurd (by simp [handleExecuteRun, handleExecuteFinish, handleExecutePre, hE]) hne
      · rw [Bool.not_eq_true] at hE
        by_cases hT : res.trim = ""
        · exact absurd
            (by simp [handleExecuteRun, handleExecuteFinish, handleExecutePre, hE, hT]) hne
        · rcases hp : jsonParse res with e | v
          · exact absurd
              (by simp [handleExecuteRun, handleExecuteFinish, handleExecutePre, hE, hT, hp]) hne
          · cases v with
            | arr elems =>
              cases elems with
              | nil =>
                exact absurd
                  (by simp [handleExecuteRun, handleExecuteFinish, handleExecutePre,
                    hE, hT, hp]) hne
              | cons x xs =>
                refine ⟨res, x, xs, rfl, hp, ?_⟩
                simp [handleExecuteRun, handleExecuteFinish, handleExecutePre, hE, hT, hp]
            | null =>
              exact absurd
                (by simp [handleExecuteRun, handleExecuteFinish, handleExecutePre,
                  hE, hT, hp]) hne
            | bool b =>
              exact absurd
                (by simp [handleExecuteRun, handleExecuteFinish, handleExecutePre,
                  hE, hT, hp]) hne
            | num n =>
              exact absurd
                (by simp [handleExecuteRun, handleExecuteFinish, handleExecutePre,
                  hE, hT, hp]) hne
            | str st =>
              exact absurd
                (by simp [handleExecuteRun, handleExecuteFinish, handleExecutePre,
                  hE, hT, hp]) hne
            | obj fls =>
              exact absurd
                (by simp [handleExecuteRun, handleExecuteFinish, handleExecutePre,
                  hE, hT, hp]) hne
            | undef =>
              exact absurd
                (by simp [handleExecuteRun, handleExecuteFinish, handleExecutePre,
                  hE, hT, hp]) hne
  · intro res hc hE hT hp
    subst hc
    simp [handleExecuteRun, handleExecuteFinish, handleExecutePre, hE, hT, hp]

theorem handle_execute_clears_and_reports_witness :
    (handleExecuteRun (fun _ => Except.ok (Json.arr []))
        (Except.ok "Error: no such table: t") ⟨[Json.null], ["x"], none, false⟩).results = [] ∧
    (handleExecuteRun (fun _ => Except.ok (Json.arr []))
        (Except.ok "Error: no such table: t") ⟨[Json.null], ["x"], none, false⟩).columns = [] ∧
    (handleExecuteRun (fun _ => Except.ok (Json.arr []))
        (Except.ok "Error: no such table: t") ⟨[Json.null], ["x"], none, false⟩).error =
      some "Error: no such table: t" :=
  (handle_execute_clears_and_reports _ _ _).2.2.1 "Error: no such table: t" rfl (by decide)

/-- C10: `fetchTables` leaves the tables state unchanged whenever the call is
rejected, the response carries the "Error" prefix, or anything thrown while
parsing or mapping is caught; it replaces the state — with the `name` field
of each parsed row, in order — only on a successfully parsed array
response. -/
theorem fetch_tables_unchanged_on_error (jsonParse : String → Except String Json)
    (call : Except String String) (tables : List Json) :
    (∀ e, call = Except.error e → fetchTables jsonParse call tables = tables) ∧
    (∀ res, call = Except.ok res → strStartsWith res "Error" = true →
      fetchTables jsonParse call tables = tables) ∧
    (∀ res e, call = Except.ok res → strStartsWith res "Error" = false →
      jsonParse res = Except.error e → fetchTables jsonParse call tables = tables) ∧
    (∀ res v, call = Except.ok res → strStartsWith res "Error" = false →
      jsonParse res = Except.ok v → (∀ xs, v ≠ Json.arr xs) →
      fetchTables jsonParse call tables = tables) ∧
    (∀ res xs, call = Except.ok res → strStartsWith res "Error" = false →
      jsonParse res = Except.ok (Json.arr xs) →
      (∀ names, List.mapM (jsGetField "name") xs = Except.ok names →
        fetchTables jsonParse call tables = names) ∧
      (∀ e, List.mapM (jsGetField "name") xs = Except.error e →
        fetchTables jsonParse call tables = tables)) := by
  refine ⟨?_, ?_, ?_, ?_, ?_⟩
  · intro e hc
    subst hc
    rfl
  · intro res hc hE
    subst hc
    simp [fetchTables, hE]
  · intro res e hc hE hp
    subst hc
    simp [fetchTables, hE, hp]
  · intro res v hc hE hp hv
    subst hc
    cases v with
    | arr xs => exact absurd rfl (hv xs)
    | null => simp [fetchTables, hE, hp]
    | bool b => simp [fetchTables, hE, hp]
    | num n => simp [fetchTables, hE, hp]
    | str st => simp [fetchTables, hE, hp]
    | obj fls => simp [fetchTables, hE, hp]
    | undef => simp [fetchTables, hE, hp]
  · intro res xs hc hE hp
    subst hc
    constructor
    · intro names hm
      unfold List.mapM at hm
      simp [fetchTables, hE, hp, hm]
    · intro e hm
      unfold List.mapM at hm
      simp [fetchTables, hE, hp, hm]

theorem fetch_tables_unchanged_on_error_witness :
    fetchTables
      (fun _ => Except.ok (Json.arr [Json.obj [("name", Json.str "users")],
        Json.obj [("name", Json.str "orders")]]))
      (Except.ok "[ignored]") [Json.str "stale"] =
      [Json.str "users", Json.str "orders"] :=
  ((fetch_tables_unchanged_on_error _ _ _).2.2.2.2 "[ignored]"
      [Json.obj [("name", Json.str "users")], Json.obj [("name", Json.str "orders")]]
      rfl (by decide) rfl).1 [Json.str "users", Json.str "orders"] rfl
